import Mathlib

/-!
Verification of the broadcast registry (`src/server/websocket_manager.py`,
class `WebSocketManager`; an identical copy lives in
`src/server/fastapi_server.py`) and of the connection pool used by
`get_db_connection` in `src/server/fastapi_server.py`.

Modelling conventions:
* a WebSocket handle is an opaque `Nat`;
* whether `send_text` on a given handle raises during one call is given by
  a parameter `fails : Nat → Bool` (each handle is attempted at most once
  per call, so one Boolean per handle suffices);
* the Python `dict` keyed by `int` is an association list with CPython
  insertion-order update semantics (update in place, append when new);
* `json.dumps` is modelled by `dumps` below, reproducing the default
  CPython formatting (item separator comma-space, key separator
  colon-space, `ensure_ascii` escaping);
* the event-loop clock read by `broadcast_setup_progress` is an explicit
  integer-tick parameter.
-/

/-- JSON values as produced by the manager's message helpers. -/
inductive Json where
  | jnull : Json
  | jbool : Bool → Json
  | jint : Int → Json
  | jstr : String → Json
  | jobj : List (String × Json) → Json

/-- Lower-case hexadecimal digit, as CPython's `json` emits in escapes. -/
def hexDigit (n : Nat) : String :=
  String.singleton (Char.ofNat (if n < 10 then 48 + n else 87 + n % 16))

/-- Four-digit hexadecimal rendering used in JSON escape sequences. -/
def hex4 (n : Nat) : String :=
  hexDigit (n / 4096 % 16) ++ hexDigit (n / 256 % 16) ++
    hexDigit (n / 16 % 16) ++ hexDigit (n % 16)

/-- Escape a single character the way CPython's default `json.dumps`
(`ensure_ascii=True`) does. -/
def jsonEscapeChar (c : Char) : String :=
  if c = '"' then "\\\""
  else if c = '\\' then "\\\\"
  else if c = '\n' then "\\n"
  else if c = '\t' then "\\t"
  else if c = '\r' then "\\r"
  else if c.toNat = 8 then "\\b"
  else if c.toNat = 12 then "\\f"
  else if c.toNat < 32 then "\\u" ++ hex4 c.toNat
  else if c.toNat < 127 then String.singleton c
  else if c.toNat < 65536 then "\\u" ++ hex4 c.toNat
  else
    "\\u" ++ hex4 (55296 + (c.toNat - 65536) / 1024) ++
      "\\u" ++ hex4 (56320 + (c.toNat - 65536) % 1024)

/-- Quote a string as a JSON string literal. -/
def jsonQuote (s : String) : String :=
  "\"" ++ String.join (s.toList.map jsonEscapeChar) ++ "\""

mutual

/-- Model of CPython `json.dumps` with default separators. -/
def dumps : Json → String
  | Json.jnull => "null"
  | Json.jbool true => "true"
  | Json.jbool false => "false"
  | Json.jint n => toString n
  | Json.jstr s => jsonQuote s
  | Json.jobj fields => "\x7b" ++ dumpsFields fields ++ "\x7d"

/-- Renders the comma-separated field list of a JSON object. -/
def dumpsFields : List (String × Json) → String
  | [] => ""
  | [(k, v)] => jsonQuote k ++ ": " ++ dumps v
  | (k, v) :: f :: rest =>
      jsonQuote k ++ ": " ++ dumps v ++ ", " ++ dumpsFields (f :: rest)

end

/-- Free-form status payload: Python `Dict[str, Any]` restricted to
JSON-representable values, as every payload in this program is. -/
def Payload := List (String × Json)

/-- CPython `dict` assignment `d[k] = v` on an insertion-ordered
association list: overwrite in place when the key is present, append
otherwise. -/
def dictInsert (k : Int) (v : Payload) : List (Int × Payload) → List (Int × Payload)
  | [] => [(k, v)]
  | (k', v') :: rest =>
      if k' = k then (k, v) :: rest else (k', v') :: dictInsert k v rest

/-- State of `WebSocketManager` (`src/server/websocket_manager.py`, lines
7-9): the ordered list `active_connections` and the progress dict. -/
structure WebSocketManager where
  active_connections : List Nat
  progress_data : List (Int × Payload)

/-- The manager as constructed by `WebSocketManager.__init__`. -/
def initManager : WebSocketManager := ⟨[], []⟩

/-- Transport primitive `websocket.send_text(message)`: raises exactly when
the failure oracle says this handle's send fails. -/
def send_text (fails : Nat → Bool) (c : Nat) (_message : String) : Except Unit Unit :=
  if fails c then Except.error () else Except.ok ()

/-- `WebSocketManager.connect` (lines 11-14): accept the handshake and
append the handle to `active_connections`, unconditionally. -/
def connect (c : Nat) (st : WebSocketManager) : WebSocketManager :=
  { st with active_connections := st.active_connections ++ [c] }

/-- `WebSocketManager.disconnect` (lines 16-19): remove the handle's first
occurrence if present (`list.remove`), otherwise leave the state alone. -/
def disconnect (c : Nat) (st : WebSocketManager) : WebSocketManager :=
  if c ∈ st.active_connections then
    { st with active_connections := st.active_connections.erase c }
  else st

/-- Everything observable about one `send_personal_message` call: the state
afterwards, the deliveries that succeeded, and whether an exception escaped
to the caller (`Except.error` would mean one did). -/
structure SendResult where
  state : WebSocketManager
  delivered : List (Nat × String)
  outcome : Except Unit Unit

/-- `WebSocketManager.send_personal_message` (lines 21-26): try the send;
on failure the `except` block logs and disconnects the handle, and the
method returns normally — no exception reaches the caller. -/
def send_personal_message (fails : Nat → Bool) (message : String) (c : Nat)
    (st : WebSocketManager) : SendResult :=
  match send_text fails c message with
  | Except.ok _ => ⟨st, [(c, message)], Except.ok ()⟩
  | Except.error _ => ⟨disconnect c st, [], Except.ok ()⟩

/-- Trace of the first loop of `broadcast`: every handle attempted, the
successful deliveries, and the handles collected in `disconnected`,
each in iteration order. -/
structure BroadcastTrace where
  attempts : List Nat
  delivered : List (Nat × String)
  disconnected : List Nat
deriving Repr, DecidableEq

/-- The `for connection in self.active_connections` loop of `broadcast`
(lines 30-35): one `send_text` per handle; a raise is caught, logged, and
the handle appended to `disconnected`; the loop always continues. -/
def broadcastLoop (fails : Nat → Bool) (message : String) :
    List Nat → BroadcastTrace
  | [] => ⟨[], [], []⟩
  | connection :: rest =>
      let t := broadcastLoop fails message rest
      match send_text fails connection message with
      | Except.ok _ =>
          ⟨connection :: t.attempts, (connection, message) :: t.delivered,
            t.disconnected⟩
      | Except.error _ =>
          ⟨connection :: t.attempts, t.delivered, connection :: t.disconnected⟩

/-- `WebSocketManager.broadcast` (lines 28-39): run the delivery loop, then
`disconnect` every handle collected in `disconnected`. The `Except.ok`
outcome records that no exception escapes the method. -/
def broadcast (fails : Nat → Bool) (message : String) (st : WebSocketManager) :
    WebSocketManager × BroadcastTrace × Except Unit Unit :=
  let t := broadcastLoop fails message st.active_connections
  (t.disconnected.foldl (fun s c => disconnect c s) st, t, Except.ok ())

/-- `WebSocketManager.broadcast_progress` (lines 41-48): build the tagged
progress dict and broadcast its JSON encoding. -/
def broadcast_progress (fails : Nat → Bool) (generation_id : Int)
    (progress_data : Payload) (st : WebSocketManager) :
    WebSocketManager × BroadcastTrace × Except Unit Unit :=
  let message := Json.jobj
    [("type", Json.jstr "progress"),
     ("generationId", Json.jint generation_id),
     ("data", Json.jobj progress_data)]
  broadcast fails (dumps message) st

/-- `WebSocketManager.broadcast_setup_progress` (lines 50-60): build the
tagged setup dict, with the event-loop clock sample `now`, and broadcast
its JSON encoding. -/
def broadcast_setup_progress (fails : Nat → Bool) (server_id step total_steps : Int)
    (message : String) (now : Int) (st : WebSocketManager) :
    WebSocketManager × BroadcastTrace × Except Unit Unit :=
  let progress_message := Json.jobj
    [("type", Json.jstr "setup_progress"),
     ("serverId", Json.jint server_id),
     ("step", Json.jint step),
     ("totalSteps", Json.jint total_steps),
     ("message", Json.jstr message),
     ("timestamp", Json.jint now)]
  broadcast fails (dumps progress_message) st

/-- `WebSocketManager.store_progress` (lines 62-64): dict assignment. -/
def store_progress (generation_id : Int) (progress_data : Payload)
    (st : WebSocketManager) : WebSocketManager :=
  { st with progress_data := dictInsert generation_id progress_data st.progress_data }

/-- `WebSocketManager.get_progress` (lines 66-68): `dict.get` with default
`{}`. -/
def get_progress (generation_id : Int) (st : WebSocketManager) : Payload :=
  (st.progress_data.lookup generation_id).getD []

/-- `WebSocketManager.clear_progress` (lines 74-77): delete the key's entry
when present. -/
def clear_progress (generation_id : Int) (st : WebSocketManager) : WebSocketManager :=
  if (st.progress_data.lookup generation_id).isSome then
    { st with progress_data := st.progress_data.eraseP (fun p => p.1 == generation_id) }
  else st

/-- Keys of the progress dict are pairwise distinct (what a real `dict`
guarantees by construction). -/
def KeysNodup (d : List (Int × Payload)) : Prop :=
  (d.map Prod.fst).Nodup

instance (d : List (Int × Payload)) : Decidable (KeysNodup d) := by
  unfold KeysNodup; infer_instance

/-- Modelled from the spec: the ConnectionPool of spec sections 3 and 4.1.
The pool implementation the repo uses lives in the third-party driver
(`asyncpg.create_pool` in `src/server/fastapi_server.py`; a SQLAlchemy
engine in `src/server/database.py`), so only its caller is under `src/`.
Connections are opaque `Nat` handles; `next_id` supplies fresh ones. -/
structure ConnectionPool where
  maximum : Nat
  idle : List Nat
  in_use : List Nat
  next_id : Nat
deriving Repr, DecidableEq

/-- Modelled from the spec: a freshly created pool holds no connections —
"it creates new connections on demand up to that ceiling rather than
eagerly" (spec section 4.1, Sizing). -/
def mkPool (maximum : Nat) : ConnectionPool :=
  ⟨maximum, [], [], 0⟩

/-- Modelled from the spec: `acquire()` hands out an idle connection when
one exists, creates a fresh one when below the ceiling, and otherwise
grants nothing (the caller waits or gets `PoolExhaustedError`). -/
def acquire (p : ConnectionPool) : ConnectionPool × Option Nat :=
  match p.idle with
  | c :: rest => ({ p with idle := rest, in_use := c :: p.in_use }, some c)
  | [] =>
      if p.in_use.length < p.maximum then
        ({ p with in_use := p.next_id :: p.in_use, next_id := p.next_id + 1 },
          some p.next_id)
      else (p, none)

/-- Modelled from the spec: `release(handle)` returns the connection to
idle; no-op if the handle is unknown. -/
def release (c : Nat) (p : ConnectionPool) : ConnectionPool :=
  if c ∈ p.in_use then
    { p with in_use := p.in_use.erase c, idle := c :: p.idle }
  else p

/-- One caller-visible pool operation. -/
inductive PoolOp where
  | acquireOp : PoolOp
  | releaseOp : Nat → PoolOp
deriving Repr, DecidableEq

/-- Apply one pool operation to a pool state. -/
def poolStep (p : ConnectionPool) : PoolOp → ConnectionPool
  | PoolOp.acquireOp => (acquire p).1
  | PoolOp.releaseOp c => release c p

/-- The pool state reached by a sequence of acquire/release calls starting
from a fresh pool. -/
def runPool (maximum : Nat) (ops : List PoolOp) : ConnectionPool :=
  ops.foldl poolStep (mkPool maximum)

/-! Helper lemmas about the broadcast loop and registry operations. -/

theorem disconnect_active (c : Nat) (st : WebSocketManager) :
    (disconnect c st).active_connections = st.active_connections.erase c := by
  unfold disconnect
  by_cases h : c ∈ st.active_connections
  · simp [h]
  · simp [h, List.erase_of_not_mem h]

theorem disconnect_progress (c : Nat) (st : WebSocketManager) :
    (disconnect c st).progress_data = st.progress_data := by
  unfold disconnect
  by_cases h : c ∈ st.active_connections <;> simp [h]

theorem broadcastLoop_attempts (fails : Nat → Bool) (m : String) (l : List Nat) :
    (broadcastLoop fails m l).attempts = l := by
  induction l with
  | nil => rfl
  | cons c rest ih =>
      unfold broadcastLoop send_text
      by_cases h : fails c <;> simp [h, ih]

theorem broadcastLoop_delivered (fails : Nat → Bool) (m : String) (l : List Nat) :
    (broadcastLoop fails m l).delivered =
      (l.filter (fun c => !fails c)).map (fun c => (c, m)) := by
  induction l with
  | nil => rfl
  | cons c rest ih =>
      unfold broadcastLoop send_text
      by_cases h : fails c <;> simp [h, ih, List.filter_cons]

theorem broadcastLoop_disconnected (fails : Nat → Bool) (m : String) (l : List Nat) :
    (broadcastLoop fails m l).disconnected = l.filter fails := by
  induction l with
  | nil => rfl
  | cons c rest ih =>
      unfold broadcastLoop send_text
      by_cases h : fails c <;> simp [h, ih, List.filter_cons]

theorem foldl_disconnect_active (ds : List Nat) (st : WebSocketManager) :
    (ds.foldl (fun s c => disconnect c s) st).active_connections =
      ds.foldl (fun l c => l.erase c) st.active_connections := by
  induction ds generalizing st with
  | nil => rfl
  | cons d rest ih =>
      simp only [List.foldl_cons, ih, disconnect_active]

theorem foldl_disconnect_progress (ds : List Nat) (st : WebSocketManager) :
    (ds.foldl (fun s c => disconnect c s) st).progress_data = st.progress_data := by
  induction ds generalizing st with
  | nil => rfl
  | cons d rest ih =>
      simp only [List.foldl_cons, ih, disconnect_progress]

theorem foldl_erase_of_forall_ne (ds : List Nat) (x : Nat) (xs : List Nat)
    (h : ∀ d ∈ ds, d ≠ x) :
    ds.foldl (fun l c => l.erase c) (x :: xs) =
      x :: ds.foldl (fun l c => l.erase c) xs := by
  induction ds generalizing xs with
  | nil => rfl
  | cons d rest ih =>
      have hdx : d ≠ x := h d (List.mem_cons_self d rest)
      simp only [List.foldl_cons]
      have herase : (x :: xs).erase d = x :: xs.erase d := by
        rw [List.erase_cons_tail]
        simpa using Ne.symm hdx
      rw [herase]
      exact ih (xs.erase d) (fun e he => h e (List.mem_cons_of_mem d he))

theorem foldl_erase_filter (l : List Nat) (p : Nat → Bool) :
    (l.filter p).foldl (fun acc d => acc.erase d) l = l.filter (fun c => !p c) := by
  induction l with
  | nil => rfl
  | cons x xs ih =>
      by_cases hx : p x
      · simp only [List.filter_cons, hx, if_pos, List.foldl_cons, List.erase_cons_head]
        simpa [hx] using ih
      · have hall : ∀ d ∈ xs.filter p, d ≠ x := by
          intro d hd
          have hdp : p d := List.of_mem_filter hd
          intro hdx
          rw [hdx] at hdp
          exact hx hdp
        simp only [List.filter_cons, hx]
        simp only [Bool.false_eq_true, if_false]
        rw [foldl_erase_of_forall_ne (xs.filter p) x xs hall, ih]
        simp [hx]

theorem broadcast_active (fails : Nat → Bool) (m : String) (st : WebSocketManager) :
    (broadcast fails m st).1.active_connections =
      st.active_connections.filter (fun c => !fails c) := by
  unfold broadcast
  rw [foldl_disconnect_active, broadcastLoop_disconnected, foldl_erase_filter]

theorem broadcast_progress_data (fails : Nat → Bool) (m : String) (st : WebSocketManager) :
    (broadcast fails m st).1.progress_data = st.progress_data := by
  unfold broadcast
  rw [foldl_disconnect_progress]

theorem length_filter_not_add (l : List Nat) (p : Nat → Bool) :
    (l.filter (fun c => !p c)).length + (l.filter p).length = l.length := by
  induction l with
  | nil => rfl
  | cons x xs ih =>
      by_cases hx : p x <;> simp [List.filter_cons, hx] <;> omega

/-! Helper lemmas about the progress dict. -/

theorem lookup_dictInsert_self (k : Int) (v : Payload) (d : List (Int × Payload)) :
    (dictInsert k v d).lookup k = some v := by
  induction d with
  | nil => simp [dictInsert, List.lookup]
  | cons p rest ih =>
      obtain ⟨k', v'⟩ := p
      by_cases h : k' = k
      · simp [dictInsert, h, List.lookup]
      · have hbe : (k == k') = false := beq_eq_false_iff_ne.mpr (Ne.symm h)
        simp [dictInsert, h, List.lookup, ih, hbe]

theorem keys_dictInsert (k : Int) (v : Payload) (d : List (Int × Payload)) :
    (dictInsert k v d).map Prod.fst =
      if k ∈ d.map Prod.fst then d.map Prod.fst else d.map Prod.fst ++ [k] := by
  induction d with
  | nil => simp [dictInsert]
  | cons p rest ih =>
      obtain ⟨k', v'⟩ := p
      by_cases h : k' = k
      · simp [dictInsert, h]
      · by_cases hmem : k ∈ rest.map Prod.fst <;>
          simp [dictInsert, h, hmem, ih, Ne.symm h]

theorem keysNodup_dictInsert (k : Int) (v : Payload) (d : List (Int × Payload))
    (h : KeysNodup d) : KeysNodup (dictInsert k v d) := by
  unfold KeysNodup at h ⊢
  rw [keys_dictInsert]
  by_cases hmem : k ∈ d.map Prod.fst
  · simpa [hmem] using h
  · simp only [hmem, if_false]
    exact List.Nodup.append h (List.nodup_singleton k)
      (by simpa [List.disjoint_singleton] using hmem)

theorem lookup_eq_none_of_not_mem_keys (k : Int) (d : List (Int × Payload))
    (h : k ∉ d.map Prod.fst) : d.lookup k = none := by
  induction d with
  | nil => rfl
  | cons p rest ih =>
      obtain ⟨k', v'⟩ := p
      simp only [List.map_cons, List.mem_cons] at h
      push_neg at h
      have hbe : (k == k') = false := beq_eq_false_iff_ne.mpr h.1
      simp [List.lookup, hbe, ih h.2]

/-! Helper lemmas about the connection pool model. -/

/-- Size invariant of the modelled pool: the total number of existing
connections never exceeds the configured maximum. -/
def PoolInv (p : ConnectionPool) : Prop :=
  p.idle.length + p.in_use.length ≤ p.maximum

theorem poolStep_maximum (p : ConnectionPool) (op : PoolOp) :
    (poolStep p op).maximum = p.maximum := by
  cases op with
  | acquireOp =>
      unfold poolStep acquire
      cases h : p.idle with
      | nil => by_cases hlt : p.in_use.length < p.maximum <;> simp [h, hlt]
      | cons c rest => simp [h]
  | releaseOp c =>
      unfold poolStep release
      by_cases h : c ∈ p.in_use <;> simp [h]

theorem poolStep_inv (p : ConnectionPool) (op : PoolOp) (h : PoolInv p) :
    PoolInv (poolStep p op) := by
  unfold PoolInv at h ⊢
  cases op with
  | acquireOp =>
      unfold poolStep acquire
      cases hidle : p.idle with
      | nil =>
          by_cases hlt : p.in_use.length < p.maximum <;>
            simp [hidle, hlt] <;> omega
      | cons c rest =>
          rw [hidle] at h
          simp [hidle] at h ⊢
          omega
  | releaseOp c =>
      unfold poolStep release
      by_cases hc : c ∈ p.in_use
      · have hlen := List.length_erase_of_mem hc
        have hpos : 0 < p.in_use.length := List.length_pos.mpr
          (fun hnil => by simp [hnil] at hc)
        simp [hc, hlen]
        omega
      · simpa [hc] using h

theorem runPool_inv_aux (ops : List PoolOp) (p : ConnectionPool) (h : PoolInv p) :
    PoolInv (ops.foldl poolStep p) ∧
      (ops.foldl poolStep p).maximum = p.maximum := by
  induction ops generalizing p with
  | nil => exact ⟨h, rfl⟩
  | cons op rest ih =>
      simp only [List.foldl_cons]
      obtain ⟨h1, h2⟩ := ih (poolStep p op) (poolStep_inv p op h)
      exact ⟨h1, h2.trans (poolStep_maximum p op)⟩

/-! Claim theorems. -/

/-- C1: a `broadcast(m)` over a registry of N entries of which K fail their
send performs exactly N-K successful sends, removes exactly the K failing
entries from the registry, and preserves the relative order of the
remaining entries (the final registry is the order-preserving filter of the
original by send success, hence a sublist of it). -/
theorem C1_broadcast_sends_and_prunes (fails : Nat → Bool) (m : String)
    (st : WebSocketManager) :
    (broadcast fails m st).2.1.delivered.length =
        st.active_connections.length - (st.active_connections.filter fails).length ∧
    (broadcast fails m st).1.active_connections =
        st.active_connections.filter (fun c => !fails c) ∧
    st.active_connections.length - (broadcast fails m st).1.active_connections.length =
        (st.active_connections.filter fails).length ∧
    (broadcast fails m st).1.active_connections.Sublist st.active_connections := by
  have hsum := length_filter_not_add st.active_connections fails
  have hdel : (broadcast fails m st).2.1.delivered.length =
      (st.active_connections.filter (fun c => !fails c)).length := by
    show (broadcastLoop fails m st.active_connections).delivered.length = _
    rw [broadcastLoop_delivered, List.length_map]
  have hact := broadcast_active fails m st
  refine ⟨by omega, hact, by rw [hact]; omega, ?_⟩
  rw [hact]
  exact List.filter_sublist _

/-- C2 counterexample: registering the same handle twice is not idempotent.
Starting from the fresh manager, two `connect(0)` calls leave handle 0 in
the registry twice, not exactly once as the claim states. -/
theorem C2_counterexample :
    (connect 0 (connect 0 initManager)).active_connections.count 0 = 2 ∧
      ¬(connect 0 (connect 0 initManager)).active_connections.count 0 = 1 := by
  constructor <;> simp [connect, initManager]

/-- C2 amended: `connect` appends unconditionally, so registering the same
handle twice adds two entries — after two `register(c)` calls the registry
holds two more occurrences of c than before, and duplicate entries for one
handle are possible. -/
theorem C2_register_appends (c : Nat) (st : WebSocketManager) :
    (connect c (connect c st)).active_connections =
        st.active_connections ++ [c, c] ∧
    (connect c (connect c st)).active_connections.count c =
        st.active_connections.count c + 2 := by
  constructor
  · simp [connect]
  · simp [connect, List.count_append]

/-- C3 counterexample: with a send that fails, `send_personal_message`
does unregister the handle, but it catches the exception and returns
normally — the failure is swallowed, not reported to the caller as the
claim states. -/
theorem C3_counterexample :
    send_text (fun _ => true) 7 "m" = Except.error () ∧
    (send_personal_message (fun _ => true) "m" 7 ⟨[7], []⟩).state.active_connections
        = [] ∧
    (send_personal_message (fun _ => true) "m" 7 ⟨[7], []⟩).outcome ≠
        Except.error () := by
  refine ⟨rfl, ?_, ?_⟩
  · simp [send_personal_message, send_text, disconnect]
  · intro h
    simp [send_personal_message, send_text] at h

/-- C3 amended: on a failing send, `send_personal_message` unregisters the
channel and delivers nothing, but swallows the exception (it logs and
returns normally); the caller receives no failure report. -/
theorem C3_send_to_prunes_but_swallows (fails : Nat → Bool) (m : String)
    (c : Nat) (st : WebSocketManager) (h : fails c = true) :
    (send_personal_message fails m c st).state = disconnect c st ∧
    (send_personal_message fails m c st).delivered = [] ∧
    (send_personal_message fails m c st).outcome = Except.ok () := by
  simp [send_personal_message, send_text, h]

theorem C3_send_to_prunes_but_swallows_witness :
    ((fun _ : Nat => true) 5 = true) ∧
    ((send_personal_message (fun _ => true) "x" 5 ⟨[5], []⟩).state =
        disconnect 5 ⟨[5], []⟩ ∧
      (send_personal_message (fun _ => true) "x" 5 ⟨[5], []⟩).delivered = [] ∧
      (send_personal_message (fun _ => true) "x" 5 ⟨[5], []⟩).outcome =
        Except.ok ()) :=
  ⟨rfl, C3_send_to_prunes_but_swallows (fun _ => true) "x" 5 ⟨[5], []⟩ rfl⟩

/-- C4: the progress store is keyed last-write-wins — storing a then b
under one generation id and reading it back yields b, and the store keeps
at most one record per id (distinct keys are preserved by both stores). -/
theorem C4_store_last_write_wins (st : WebSocketManager) (id : Int)
    (a b : Payload) (h : KeysNodup st.progress_data) :
    get_progress id (store_progress id b (store_progress id a st)) = b ∧
    KeysNodup (store_progress id b (store_progress id a st)).progress_data := by
  constructor
  · unfold get_progress store_progress
    simp [lookup_dictInsert_self]
  · exact keysNodup_dictInsert id b _ (keysNodup_dictInsert id a _ h)

theorem C4_store_last_write_wins_witness :
    KeysNodup initManager.progress_data ∧
    (get_progress 1 (store_progress 1 [] (store_progress 1 [] initManager)) = [] ∧
      KeysNodup (store_progress 1 [] (store_progress 1 [] initManager)).progress_data) :=
  ⟨by decide, C4_store_last_write_wins initManager 1 [] [] (by decide)⟩

/-- C5: during a broadcast over a duplicate-free registry, every entry is
attempted exactly once in order (a failure never aborts the remaining
deliveries and nothing is retried), each channel gets at most one delivery
attempt, and no exception escapes the call. -/
theorem C5_broadcast_contains_failures (fails : Nat → Bool) (m : String)
    (st : WebSocketManager) (h : st.active_connections.Nodup) :
    (broadcast fails m st).2.1.attempts = st.active_connections ∧
    (∀ c : Nat, (broadcast fails m st).2.1.attempts.count c ≤ 1) ∧
    (broadcast fails m st).2.2 = Except.ok () := by
  have hatt : (broadcast fails m st).2.1.attempts = st.active_connections := by
    show (broadcastLoop fails m st.active_connections).attempts = _
    exact broadcastLoop_attempts fails m st.active_connections
  refine ⟨hatt, ?_, rfl⟩
  intro c
  rw [hatt]
  exact List.nodup_iff_count_le_one.mp h c

theorem C5_broadcast_contains_failures_witness :
    ([0, 1] : List Nat).Nodup ∧
    ((broadcast (fun c => decide (c = 1)) "x" ⟨[0, 1], []⟩).2.1.attempts = [0, 1] ∧
      (∀ c : Nat,
        (broadcast (fun c => decide (c = 1)) "x" ⟨[0, 1], []⟩).2.1.attempts.count c ≤ 1) ∧
      (broadcast (fun c => decide (c = 1)) "x" ⟨[0, 1], []⟩).2.2 = Except.ok ()) :=
  ⟨by decide,
    C5_broadcast_contains_failures (fun c => decide (c = 1)) "x" ⟨[0, 1], []⟩ (by decide)⟩

/-- C6: for every sequence of acquire/release calls starting from a fresh
pool, the number of in-use connections never exceeds the configured
maximum, the total number of existing connections (idle plus in-use) never
exceeds the maximum, and the fresh pool starts with no connections
(creation is on demand, not eager). -/
theorem C6_pool_bounded (maximum : Nat) (ops : List PoolOp) :
    (runPool maximum ops).in_use.length ≤ maximum ∧
    (runPool maximum ops).idle.length + (runPool maximum ops).in_use.length
        ≤ maximum ∧
    (mkPool maximum).idle.length + (mkPool maximum).in_use.length = 0 := by
  have h0 : PoolInv (mkPool maximum) := by simp [PoolInv, mkPool]
  obtain ⟨h1, h2⟩ := runPool_inv_aux ops (mkPool maximum) h0
  unfold PoolInv at h1
  have hmax : (mkPool maximum).maximum = maximum := rfl
  rw [hmax] at h2
  unfold runPool
  exact ⟨by omega, by omega, rfl⟩

/-- C7: the two message-shape helpers broadcast exactly the JSON encoding
of their tagged payloads — `broadcast_progress` the encoding of the
progress object and `broadcast_setup_progress` the encoding of the
setup-progress object (with the sampled clock value) — each by calling
`broadcast` with that encoded string, so every successful delivery carries
exactly that string. -/
theorem C7_message_helpers_encode (fails : Nat → Bool) (generation_id : Int)
    (data : Payload) (server_id step total_steps : Int) (m : String)
    (now : Int) (st : WebSocketManager) :
    broadcast_progress fails generation_id data st =
      broadcast fails (dumps (Json.jobj
        [("type", Json.jstr "progress"),
         ("generationId", Json.jint generation_id),
         ("data", Json.jobj data)])) st ∧
    (broadcast_progress fails generation_id data st).2.1.delivered =
      (st.active_connections.filter (fun c => !fails c)).map
        (fun c => (c, dumps (Json.jobj
          [("type", Json.jstr "progress"),
           ("generationId", Json.jint generation_id),
           ("data", Json.jobj data)]))) ∧
    broadcast_setup_progress fails server_id step total_steps m now st =
      broadcast fails (dumps (Json.jobj
        [("type", Json.jstr "setup_progress"),
         ("serverId", Json.jint server_id),
         ("step", Json.jint step),
         ("totalSteps", Json.jint total_steps),
         ("message", Json.jstr m),
         ("timestamp", Json.jint now)])) st ∧
    (broadcast_setup_progress fails server_id step total_steps m now st).2.1.delivered =
      (st.active_connections.filter (fun c => !fails c)).map
        (fun c => (c, dumps (Json.jobj
          [("type", Json.jstr "setup_progress"),
           ("serverId", Json.jint server_id),
           ("step", Json.jint step),
           ("totalSteps", Json.jint total_steps),
           ("message", Json.jstr m),
           ("timestamp", Json.jint now)]))) := by
  refine ⟨rfl, ?_, rfl, ?_⟩
  · show (broadcastLoop fails _ st.active_connections).delivered = _
    exact broadcastLoop_delivered fails _ st.active_connections
  · show (broadcastLoop fails _ st.active_connections).delivered = _
    exact broadcastLoop_delivered fails _ st.active_connections

/-- C8: `disconnect` removes the handle's entry when it is registered
(its first occurrence: the count drops by one, everything else keeps its
order) and is a state-preserving no-op, raising nothing, when the handle
is not registered. -/
theorem C8_unregister_removes_or_noop (c : Nat) (st : WebSocketManager) :
    (c ∈ st.active_connections →
      (disconnect c st).active_connections = st.active_connections.erase c ∧
      (disconnect c st).active_connections.length + 1 =
        st.active_connections.length ∧
      (disconnect c st).active_connections.count c + 1 =
        st.active_connections.count c ∧
      (disconnect c st).active_connections.Sublist st.active_connections) ∧
    (c ∉ st.active_connections → disconnect c st = st) := by
  constructor
  · intro h
    have hlen := List.length_erase_of_mem h
    have hpos : 0 < st.active_connections.length :=
      List.length_pos.mpr (fun hnil => by simp [hnil] at h)
    have hcnt := List.count_erase_self c st.active_connections
    have hcpos : 0 < st.active_connections.count c := List.count_pos_iff.mpr h
    refine ⟨disconnect_active c st, ?_, ?_, ?_⟩
    · rw [disconnect_active, hlen]; omega
    · rw [disconnect_active, hcnt]; omega
    · rw [disconnect_active]; exact List.erase_sublist c st.active_connections
  · intro h
    unfold disconnect
    simp [h]

theorem C8_unregister_removes_or_noop_witness :
    (3 ∈ ([3, 4] : List Nat)) ∧
    (5 ∉ ([3, 4] : List Nat)) ∧
    (disconnect 3 ⟨[3, 4], []⟩).active_connections = ([3, 4] : List Nat).erase 3 ∧
    disconnect 5 ⟨[3, 4], []⟩ = ⟨[3, 4], []⟩ := by
  refine ⟨by decide, by decide, ?_, ?_⟩
  · exact ((C8_unregister_removes_or_noop 3 ⟨[3, 4], []⟩).1 (by decide)).1
  · exact (C8_unregister_removes_or_noop 5 ⟨[3, 4], []⟩).2 (by decide)

/-- C9: `get_progress` is total — for a generation id with no stored
record it returns the empty mapping rather than raising or returning a
null value. -/
theorem C9_get_progress_default (id : Int) (st : WebSocketManager)
    (h : id ∉ st.progress_data.map Prod.fst) :
    get_progress id st = [] := by
  unfold get_progress
  rw [lookup_eq_none_of_not_mem_keys id st.progress_data h]
  rfl

theorem C9_get_progress_default_witness :
    ((5 : Int) ∉ initManager.progress_data.map Prod.fst) ∧
    get_progress 5 initManager = [] :=
  ⟨by decide, C9_get_progress_default 5 initManager (by decide)⟩

/-- C10: frame conditions — `broadcast` never adds a registry entry (the
final membership list is a sublist of the prior one) and leaves the
progress store untouched, while `store_progress` and `clear_progress`
never change the membership list (`get_progress` is a pure reader by
construction). -/
theorem C10_frame_conditions (fails : Nat → Bool) (m : String)
    (st : WebSocketManager) (id : Int) (d : Payload) :
    (broadcast fails m st).1.active_connections.Sublist st.active_connections ∧
    (broadcast fails m st).1.progress_data = st.progress_data ∧
    (store_progress id d st).active_connections = st.active_connections ∧
    (clear_progress id st).active_connections = st.active_connections := by
  refine ⟨?_, broadcast_progress_data fails m st, rfl, ?_⟩
  · rw [broadcast_active]
    exact List.filter_sublist _
  · unfold clear_progress
    by_cases h : (st.progress_data.lookup id).isSome <;> simp [h]

/-- C5 counterexample: because `connect` can register the same handle
twice, a broadcast over the reachable registry [0, 0] attempts delivery to
channel 0 twice in one call, so "at most one delivery attempt per
registered channel" fails as stated (it holds per registry entry, and per
channel only on duplicate-free registries). -/
theorem C5_counterexample :
    (broadcast (fun _ => false) "x"
        (connect 0 (connect 0 initManager))).2.1.attempts.count 0 = 2 ∧
    ¬(broadcast (fun _ => false) "x"
        (connect 0 (connect 0 initManager))).2.1.attempts.count 0 ≤ 1 := by
  constructor <;> decide
